import Mathlib

/-!
# Verification of `main.py` (coin-updates)

A shallow embedding of the program in `src/main.py`: the watch-list
resolver (`get_watched_coins`), the report renderer
(`create_crypto_email_body` with `format_percentage`), the run
orchestrator (`send_crypto_update`) and the anchor-time computation
(`get_next_run_time`).

Modelling conventions:
* Python floats are modelled as rationals (`ℚ`); the decimal
  formatting (`"%.1f"`, `"%,.2f"`) is modelled with round-half-even on
  the rational value.
* Python exceptions are modelled with `Except String`: a raised,
  uncaught exception is an `Except.error` carrying a short message
  naming the exception class.
* `datetime` values are modelled as seconds on a naive timeline
  (`ℕ`); `.date()` is flooring to a multiple of 86400,
  `timedelta(days=1)` is `+ 86400` (naive datetimes add exactly 24h).
* External collaborators (the HTTP fetch, the SMTP send, `json.loads`)
  are passed in as oracle arguments, as the spec treats them as
  interface boundaries.
-/

/-! ## Python string primitives

List-based models of the `str` methods the program uses
(`.strip()`, `.split(sep)`, `.upper()`, `int(...)`).  Whitespace is
`Char.isWhitespace` (space, tab, CR, LF), which agrees with Python on
every character the program meets. -/

/-- Model of `str.strip()` on a character list: drop whitespace at both ends. -/
def pyStripChars (l : List Char) : List Char :=
  ((l.dropWhile Char.isWhitespace).reverse.dropWhile Char.isWhitespace).reverse

/-- Model of Python `str.strip()`. -/
def pyStrip (s : String) : String :=
  String.mk (pyStripChars s.data)

/-- Model of `str.split(sep)` for a one-character separator, on character
lists.  Like Python, empty segments are kept and the empty string
splits to `[""]`. -/
def pySplitChars (c : Char) (l : List Char) : List (List Char) :=
  l.foldr
    (fun ch acc =>
      if ch = c then [] :: acc
      else
        match acc with
        | h :: t => (ch :: h) :: t
        | [] => [[ch]])
    [[]]

/-- Model of Python `str.split(sep)` for a one-character separator. -/
def pySplit (s : String) (c : Char) : List String :=
  (pySplitChars c s.data).map String.mk

/-- Model of Python `str.upper()` (ASCII suffices for this program). -/
def pyUpper (s : String) : String :=
  String.mk (s.data.map Char.toUpper)

/-- Value of a non-empty all-digit run, `none` otherwise. -/
def digitsVal? (l : List Char) : Option ℕ :=
  if l ≠ [] ∧ l.all Char.isDigit then
    some (l.foldl (fun acc c => acc * 10 + (c.toNat - 48)) 0)
  else none

/-- Model of Python `int(str)`: optional surrounding whitespace, an
optional sign, then a non-empty digit run; anything else raises
`ValueError`, modelled as `none`. -/
def pyInt? (s : String) : Option ℤ :=
  match pyStripChars s.data with
  | '-' :: rest => (digitsVal? rest).map (fun n => -(n : ℤ))
  | '+' :: rest => (digitsVal? rest).map (fun n => (n : ℤ))
  | l => (digitsVal? l).map (fun n => (n : ℤ))

/-! ## Decimal rendering of numbers

Models of Python `format` specs `:.1f` and `:,.2f` over `ℚ`. -/

/-- The character of a decimal digit. -/
def pyDigitChar (n : ℕ) : Char :=
  Char.ofNat (48 + n)

/-- Decimal digit run of a natural number (fuel-structured so that it
evaluates in the kernel). -/
def natDigitsAux : ℕ → ℕ → List Char
  | 0, _ => []
  | fuel + 1, n =>
    if n < 10 then [pyDigitChar n]
    else natDigitsAux fuel (n / 10) ++ [pyDigitChar (n % 10)]

/-- Decimal rendering of a natural number. -/
def natStr (n : ℕ) : String :=
  String.mk (natDigitsAux (n + 1) n)

/-- Round the fraction `a / b` (with `b > 0`) half to even, the
rounding of Python `format` on floats (here applied to the exact
rational value).  Works on the raw fraction so that every step is
integer arithmetic. -/
def rheFrac (a b : ℤ) : ℤ :=
  let f : ℤ := a.fdiv b
  let r : ℤ := a - f * b
  if 2 * r < b then f
  else if b < 2 * r then f + 1
  else if f % 2 = 0 then f else f + 1

/-- The value `q` rounded half to even after scaling by `10 ^ k`:
`rhe10 q 1` is the integer behind `f"{q:.1f}"`, `rhe10 q 2` the one
behind `f"{q:,.2f}"`. -/
def rhe10 (q : ℚ) (k : ℕ) : ℤ :=
  rheFrac (q.num * 10 ^ k) (q.den : ℤ)

/-- Model of Python `f"{value:.1f}"`: one digit after the point. -/
def fmt1 (q : ℚ) : String :=
  let n : ℤ := rhe10 q 1
  (if n < 0 then "-" else "") ++ natStr (n.natAbs / 10) ++ "." ++
    String.mk [pyDigitChar (n.natAbs % 10)]

/-- Thousands grouping on a reversed digit run: a comma after every
three digits, counted from the right. -/
def group3rev : List Char → List Char
  | a :: b :: c :: d :: rest => a :: b :: c :: ',' :: group3rev (d :: rest)
  | l => l

/-- Decimal rendering of a natural number with thousands separators. -/
def commaNat (n : ℕ) : String :=
  String.mk ((group3rev (natStr n).data.reverse).reverse)

/-- Model of Python `f"{value:,.2f}"`: thousands separators and two
digits after the point. -/
def fmtPrice (q : ℚ) : String :=
  let n : ℤ := rhe10 q 2
  (if n < 0 then "-" else "") ++ commaNat (n.natAbs / 100) ++ "." ++
    String.mk [pyDigitChar (n.natAbs % 100 / 10), pyDigitChar (n.natAbs % 10)]


/-! ## Data model

`PyVal` is the dynamic value a JSON field of a fetched record can
hold where the program expects a number: a Python `None` (also
standing for an absent key reached through `.get`), a number, or a
string.  `CoinRecord` is one element of the list the price API
returns; `id` and `current_price` are `Option` because the program
reaches them with `coin[...]`, where a missing key raises `KeyError`,
while the three change fields are reached with `.get(...)`, where a
missing key just yields `None`. -/

inductive PyVal : Type where
  | none : PyVal
  | num : ℚ → PyVal
  | str : String → PyVal
deriving DecidableEq

/-- One record of the fetched collection (`coins_data` element). -/
structure CoinRecord : Type where
  id : Option String
  current_price : Option PyVal
  price_change_percentage_24h_in_currency : PyVal
  price_change_percentage_7d_in_currency : PyVal
  price_change_percentage_30d_in_currency : PyVal
deriving DecidableEq

/-- A JSON value, the possible result of `json.loads`. -/
inductive JVal : Type where
  | null : JVal
  | bool : Bool → JVal
  | num : ℚ → JVal
  | str : String → JVal
  | arr : List JVal → JVal
  | obj : List (String × JVal) → JVal

/-! ## `format_percentage` (src/main.py lines 73-77) -/

/-- The markup emitted for a numeric change value:
`<span style="color: {color}">{value:.1f}%</span>`. -/
def pctSpan (color : String) (q : ℚ) : String :=
  "<span style=\"color: " ++ color ++ "\">" ++ fmt1 q ++ "%</span>"

/-- Embedding of `format_percentage`.  `None` and the string `"N/A"`
give the bare `"N/A"`; a number is compared with `0` and wrapped in a
colored span; any other string makes `value > 0` raise `TypeError`,
which no caller catches. -/
def format_percentage : PyVal → Except String String
  | PyVal.none => Except.ok "N/A"
  | PyVal.num q =>
    Except.ok (pctSpan (if 0 < q then "green" else "red") q)
  | PyVal.str s =>
    if s = "N/A" then Except.ok "N/A"
    else Except.error "TypeError: str and int comparison"

/-! ## `create_crypto_email_body` (src/main.py lines 79-100) -/

/-- The string of Python `KeyError(key)`, as it appears in the
per-item error line (`repr` of the missing key). -/
def keyErrStr (key : String) : String :=
  "\x27" ++ key ++ "\x27"

/-- The per-item error line
`<p>Error accessing data for {coin_id}: {e}</p>`. -/
def key_error_line (coin_id key : String) : String :=
  "<p>Error accessing data for " ++ coin_id ++ ": " ++ keyErrStr key ++ "</p>"

/-- The well-formed entry the f-string at lines 89-95 builds for one
coin, whitespace included. -/
def coin_entry (cid : String) (price : ℚ) (c24 c7 c30 : String) : String :=
  "\n            <p><b>" ++ pyUpper cid ++ "</b>:\n            <br>Current Price: $"
    ++ fmtPrice price ++ "\n            <br>24h Change: " ++ c24
    ++ "\n            <br>7d Change: " ++ c7
    ++ "\n            <br>30d Change: " ++ c30
    ++ "\n            </p>"

/-- Lookup `coins_dict[coin_id]`: the dict comprehension keyed on the `id`
field keeps, for duplicate identifiers, the record seen last. -/
def coinsDictLookup (coins_data : List CoinRecord) (k : String) : Option CoinRecord :=
  coins_data.reverse.find? (fun c => decide (c.id = some k))

/-- The body of the `try` at lines 87-95 once `coins_dict[coin_id]`
has produced `coin`: the f-string evaluates `coin["id"].upper()`,
then formats `coin["current_price"]`, then the three change fields.
A `KeyError` (absent `id` or `current_price` key) is caught by line
96 and becomes the per-item error line; a non-numeric price raises
`TypeError`/`ValueError`, which nothing catches. -/
def render_coin (coin : CoinRecord) (coin_id : String) : Except String String :=
  match coin.id with
  | Option.none => Except.ok (key_error_line coin_id "id")
  | some cid =>
    match coin.current_price with
    | Option.none => Except.ok (key_error_line coin_id "current_price")
    | some (PyVal.num price) => do
      let c24 ← format_percentage coin.price_change_percentage_24h_in_currency
      let c7 ← format_percentage coin.price_change_percentage_7d_in_currency
      let c30 ← format_percentage coin.price_change_percentage_30d_in_currency
      Except.ok (coin_entry cid price c24 c7 c30)
    | some PyVal.none =>
      Except.error "TypeError: unsupported format string passed to NoneType"
    | some (PyVal.str _) =>
      Except.error "ValueError: unknown format code f for str"

/-- One iteration of the `for coin_id in WATCHED_COINS` loop:
`coins_dict[coin_id]` raising `KeyError` is caught at line 96. -/
def render_item (coins_data : List CoinRecord) (coin_id : String) : Except String String :=
  match coinsDictLookup coins_data coin_id with
  | Option.none => Except.ok (key_error_line coin_id coin_id)
  | some coin => render_coin coin coin_id

/-- The whole loop, one appended piece per watched identifier; an
uncaught exception from any iteration aborts the loop. -/
def render_items (coins_data : List CoinRecord) : List String → Except String (List String)
  | [] => Except.ok []
  | coin_id :: rest => do
    let item ← render_item coins_data coin_id
    let restItems ← render_items coins_data rest
    Except.ok (item :: restItems)

/-- Embedding of `create_crypto_email_body`.  The dict comprehension
at line 83 evaluates `coin["id"]` for every record first: a record
without an `id` key raises `KeyError` before the loop starts.  The
loop appends the pieces in watch-list order between the
`<html><body>` wrappers. -/
def create_crypto_email_body (watched : List String) (coins_data : List CoinRecord) :
    Except String String :=
  if coins_data.all (fun c => c.id.isSome) then
    match render_items coins_data watched with
    | Except.ok items =>
      Except.ok ("<html><body>" ++ String.join items ++ "</body></html>")
    | Except.error e => Except.error e
  else Except.error ("KeyError: " ++ keyErrStr "id")

/-! ## `send_crypto_update` (src/main.py lines 114-135)

The fetch and the SMTP send are the external collaborators: the fetch
result (`None` on `RequestException`, else the decoded list) and the
outcome `send_email` would have (a raised exception or a clean
return) are passed in as oracles.  The embedding additionally counts
how often the renderer and the dispatcher are invoked, so that
"`send_email` is never called" is a statable fact. -/

/-- What one run of `send_crypto_update` did.  `success` is the
boolean return value; the two counters instrument the calls to
`create_crypto_email_body` and `send_email`. -/
structure RunOutcome : Type where
  success : Bool
  render_calls : ℕ
  dispatch_attempts : ℕ
deriving DecidableEq

/-- Embedding of `send_crypto_update`.  `if crypto_data:` is Python
truthiness: `None` (fetch failure) and `[]` (empty success) both take
the `return False` path.  Otherwise the body is rendered (a raised
rendering exception propagates — only `send_email` sits in a `try`)
and the send is attempted, any exception from it being converted to
`False` at lines 132-134. -/
def send_crypto_update (watched : List String) (fetch_result : Option (List CoinRecord))
    (send_result : Except String Unit) : Except String RunOutcome :=
  match fetch_result with
  | Option.none => Except.ok ⟨false, 0, 0⟩
  | some crypto_data =>
    if crypto_data.isEmpty then Except.ok ⟨false, 0, 0⟩
    else
      match create_crypto_email_body watched crypto_data with
      | Except.error e => Except.error e
      | Except.ok _email_body =>
        match send_result with
        | Except.ok _ => Except.ok ⟨true, 1, 1⟩
        | Except.error _e => Except.ok ⟨false, 1, 1⟩

/-! ## `get_next_run_time` (src/main.py lines 137-164) -/

/-- The parsing part of `get_next_run_time`:
`hour, minute = map(int, START_TIME.split(colon))` followed by
`time(hour, minute)`.  Any `ValueError` — wrong number of `:`-parts,
a part that is not an integer, or an hour/minute out of range — is
the `none` case (caught at line 161). -/
def parse_start_time (s : String) : Option (ℕ × ℕ) :=
  match pySplit s ':' with
  | [hs, ms] =>
    match pyInt? hs, pyInt? ms with
    | some h, some m =>
      if 0 ≤ h ∧ h ≤ 23 ∧ 0 ≤ m ∧ m ≤ 59 then some (h.toNat, m.toNat)
      else Option.none
    | _, _ => Option.none
  | _ => Option.none

/-- Model of `datetime.date()` on the seconds timeline: the day index. -/
def dateOf (t : ℕ) : ℕ :=
  t / 86400

/-- Model of `datetime.combine(date, time(h, m))` on the seconds timeline. -/
def combineDate (d h m : ℕ) : ℕ :=
  d * 86400 + h * 3600 + m * 60

/-- Embedding of `get_next_run_time`: today at the anchor time, moved
to tomorrow when that moment is not strictly in the future; on a
parse failure, `now` itself. -/
def get_next_run_time (start_time : String) (now : ℕ) : ℕ :=
  match parse_start_time start_time with
  | some (h, m) =>
    let next_run := combineDate (dateOf now) h m
    if next_run ≤ now then next_run + 86400 else next_run
  | Option.none => now

/-! ## `get_watched_coins` (src/main.py lines 24-46)

`json.loads` is an external collaborator, passed in as an oracle
(`Option.none` models `json.JSONDecodeError`).  The two environment
variables are `Option String`; Python truthiness makes the empty
string fall through exactly like an unset variable. -/

/-- Lines 39-46: the delimited-string tier and the default tier. -/
def watched_coins_fallback (watched_coins_list : Option String) : JVal :=
  match watched_coins_list with
  | some t =>
    if t = "" then JVal.arr [JVal.str "bitcoin", JVal.str "ethereum"]
    else JVal.arr ((pySplit t ',').map (fun c => JVal.str (pyStrip c)))
  | Option.none => JVal.arr [JVal.str "bitcoin", JVal.str "ethereum"]

/-- Embedding of `get_watched_coins`: the structured (JSON) form is
preferred when the variable is truthy and parses, the parse result
being returned verbatim; otherwise resolution falls through. -/
def get_watched_coins (json_loads : String → Option JVal)
    (watched_coins watched_coins_list : Option String) : JVal :=
  match watched_coins with
  | some s =>
    if s = "" then watched_coins_fallback watched_coins_list
    else
      match json_loads s with
      | some j => j
      | Option.none => watched_coins_fallback watched_coins_list
  | Option.none => watched_coins_fallback watched_coins_list

/-- The element list of a JSON array (empty for non-arrays); used to
speak about the identifiers `get_watched_coins` returns. -/
def jarrElems : JVal → List JVal
  | JVal.arr l => l
  | _ => []

/-! ## Well-formedness of fetched records

`WFRecord` is the spec data model of a MarketRecord: an identifier, a
numeric current price, and three change figures each either absent or
numeric.  `RenderOK` is the weaker shape on which rendering provably
cannot raise: the price key may also be absent (that is caught as a
`KeyError`), and a change field may also hold the string `"N/A"`. -/

/-- A change field the data model allows: absent or numeric. -/
def numOrAbsent (v : PyVal) : Prop :=
  match v with
  | PyVal.str _ => False
  | _ => True

/-- A change field `format_percentage` accepts without raising. -/
def changeRenderable (v : PyVal) : Prop :=
  match v with
  | PyVal.str s => s = "N/A"
  | _ => True

/-- A price value the f-string formats without raising: a present,
numeric `current_price`, or an absent key (caught as `KeyError`). -/
def priceRenderable (p : Option PyVal) : Prop :=
  match p with
  | Option.none => True
  | some (PyVal.num _) => True
  | _ => False

/-- A record of the spec data model. -/
def WFRecord (c : CoinRecord) : Prop :=
  c.id.isSome = true
    ∧ (∃ q, c.current_price = some (PyVal.num q))
    ∧ numOrAbsent c.price_change_percentage_24h_in_currency
    ∧ numOrAbsent c.price_change_percentage_7d_in_currency
    ∧ numOrAbsent c.price_change_percentage_30d_in_currency

/-- A record the renderer is total on. -/
def RenderOK (c : CoinRecord) : Prop :=
  c.id.isSome = true
    ∧ priceRenderable c.current_price
    ∧ changeRenderable c.price_change_percentage_24h_in_currency
    ∧ changeRenderable c.price_change_percentage_7d_in_currency
    ∧ changeRenderable c.price_change_percentage_30d_in_currency

/-! ## Helper lemmas -/

theorem numOrAbsent_changeRenderable {v : PyVal} (h : numOrAbsent v) :
    changeRenderable v := by
  cases v <;> simp_all [numOrAbsent, changeRenderable]

theorem WFRecord_RenderOK {c : CoinRecord} (h : WFRecord c) : RenderOK c := by
  obtain ⟨h1, ⟨q, h2⟩, h3, h4, h5⟩ := h
  exact ⟨h1, by rw [h2]; trivial,
    numOrAbsent_changeRenderable h3,
    numOrAbsent_changeRenderable h4,
    numOrAbsent_changeRenderable h5⟩

theorem format_percentage_ok {v : PyVal} (h : changeRenderable v) :
    ∃ s, format_percentage v = Except.ok s := by
  cases v with
  | none => exact ⟨"N/A", rfl⟩
  | num q => exact ⟨_, rfl⟩
  | str s =>
    simp only [changeRenderable] at h
    subst h
    exact ⟨"N/A", rfl⟩

theorem render_coin_ok {c : CoinRecord} (coin_id : String) (h : RenderOK c) :
    ∃ s, render_coin c coin_id = Except.ok s := by
  obtain ⟨h1, h2, h3, h4, h5⟩ := h
  obtain ⟨cid, hcid⟩ := Option.isSome_iff_exists.mp h1
  obtain ⟨s24, e24⟩ := format_percentage_ok h3
  obtain ⟨s7, e7⟩ := format_percentage_ok h4
  obtain ⟨s30, e30⟩ := format_percentage_ok h5
  match hp : c.current_price with
  | Option.none => exact ⟨_, by rw [render_coin, hcid, hp]⟩
  | some (PyVal.num price) =>
    refine ⟨coin_entry cid price s24 s7 s30, ?_⟩
    rw [render_coin, hcid, hp, e24, e7, e30]
    rfl
  | some PyVal.none => rw [hp] at h2; exact absurd h2 (by simp [priceRenderable])
  | some (PyVal.str t) => rw [hp] at h2; exact absurd h2 (by simp [priceRenderable])

theorem coinsDictLookup_eq_none_iff (R : List CoinRecord) (k : String) :
    coinsDictLookup R k = Option.none ↔ ∀ c ∈ R, c.id ≠ some k := by
  rw [coinsDictLookup, List.find?_eq_none]
  constructor
  · intro h c hc
    have := h c (List.mem_reverse.mpr hc)
    simpa using this
  · intro h c hc
    have := h c (List.mem_reverse.mp hc)
    simpa using this

theorem coinsDictLookup_mem {R : List CoinRecord} {k : String} {c : CoinRecord}
    (h : coinsDictLookup R k = some c) : c ∈ R ∧ c.id = some k := by
  rw [coinsDictLookup] at h
  refine ⟨List.mem_reverse.mp (List.mem_of_find?_eq_some h), ?_⟩
  have := List.find?_some h
  simpa using this

theorem render_item_ok {R : List CoinRecord} (hR : ∀ c ∈ R, RenderOK c)
    (coin_id : String) : ∃ s, render_item R coin_id = Except.ok s := by
  match hl : coinsDictLookup R coin_id with
  | Option.none => exact ⟨_, by rw [render_item, hl]⟩
  | some coin =>
    obtain ⟨hmem, _⟩ := coinsDictLookup_mem hl
    obtain ⟨s, hs⟩ := render_coin_ok coin_id (hR coin hmem)
    exact ⟨s, by rw [render_item, hl]; exact hs⟩

theorem render_items_ok {R : List CoinRecord} :
    ∀ {W : List String}, (∀ cid ∈ W, ∃ s, render_item R cid = Except.ok s) →
      ∃ items : List String, render_items R W = Except.ok items
        ∧ items.length = W.length
        ∧ ∀ i (hi : i < W.length), ∃ b, items.get? i = some b
            ∧ render_item R (W.get ⟨i, hi⟩) = Except.ok b := by
  intro W
  induction W with
  | nil =>
    intro _
    exact ⟨[], rfl, rfl, fun i hi => absurd hi (by simp)⟩
  | cons cid rest ih =>
    intro h
    obtain ⟨s, hs⟩ := h cid (List.mem_cons_self cid rest)
    obtain ⟨items, hitems, hlen, hidx⟩ := ih (fun c hc => h c (List.mem_cons_of_mem cid hc))
    refine ⟨s :: items, ?_, by simpa using hlen, ?_⟩
    · rw [render_items, hs, hitems]
      rfl
    · intro i hi
      match i with
      | 0 => exact ⟨s, rfl, hs⟩
      | j + 1 =>
        obtain ⟨b, hb1, hb2⟩ := hidx j (by simpa using hi)
        exact ⟨b, by simpa using hb1, hb2⟩

theorem find?_filter_eq {α : Type} (f p : α → Bool)
    (h : ∀ x, f x = true → p x = true) :
    ∀ l : List α, (l.filter p).find? f = l.find? f := by
  intro l
  induction l with
  | nil => rfl
  | cons a t ih =>
    by_cases hf : f a = true
    · have hp := h a hf
      simp [List.filter_cons, hp, List.find?_cons, hf]
    · by_cases hp : p a = true
      · simp [List.filter_cons, hp, List.find?_cons, hf, ih]
      · simp [List.filter_cons, hp, List.find?_cons, hf, ih]

theorem coinsDictLookup_filter (R : List CoinRecord) (p : CoinRecord → Bool)
    (k : String) (h : ∀ c, c.id = some k → p c = true) :
    coinsDictLookup (R.filter p) k = coinsDictLookup R k := by
  rw [coinsDictLookup, coinsDictLookup, ← List.filter_reverse]
  exact find?_filter_eq _ p (fun c hc => h c (by simpa using hc)) R.reverse

theorem dropWhile_head_false {α : Type} (p : α → Bool) :
    ∀ {l : List α} {a : α} {t : List α}, l.dropWhile p = a :: t → p a = false := by
  intro l
  induction l with
  | nil => intro a t h; simp at h
  | cons x xs ih =>
    intro a t h
    by_cases hx : p x = true
    · rw [List.dropWhile_cons, if_pos hx] at h
      exact ih h
    · rw [List.dropWhile_cons, if_neg hx] at h
      cases h
      exact Bool.not_eq_true _ ▸ Bool.of_not_eq_true hx

theorem dropWhile_dropWhile {α : Type} (p : α → Bool) (l : List α) :
    (l.dropWhile p).dropWhile p = l.dropWhile p := by
  cases h : l.dropWhile p with
  | nil => rfl
  | cons a t =>
    have ha := dropWhile_head_false p h
    rw [List.dropWhile_cons, if_neg (by simp [ha])]

theorem strip_tail_fixed {α : Type} (p : α → Bool) (A : List α)
    (hA : A.dropWhile p = A) :
    ((A.reverse.dropWhile p).reverse).dropWhile p = (A.reverse.dropWhile p).reverse := by
  cases hC : (A.reverse.dropWhile p).reverse with
  | nil => rfl
  | cons c cs =>
    have hSplit : A.reverse.takeWhile p ++ A.reverse.dropWhile p = A.reverse :=
      List.takeWhile_append_dropWhile p A.reverse
    obtain ⟨X, hA2⟩ : ∃ X, A = (A.reverse.dropWhile p).reverse ++ X := by
      refine ⟨(A.reverse.takeWhile p).reverse, ?_⟩
      have h := congrArg List.reverse hSplit
      rw [List.reverse_append, List.reverse_reverse] at h
      exact h.symm
    have hAc : A.dropWhile p = c :: (cs ++ X) := by
      rw [hA, hA2, hC]
      rfl
    have hc := dropWhile_head_false p hAc
    rw [List.dropWhile_cons, if_neg (by simp [hc])]

theorem pyStripChars_idem (l : List Char) :
    pyStripChars (pyStripChars l) = pyStripChars l := by
  have hA : (l.dropWhile Char.isWhitespace).dropWhile Char.isWhitespace
      = l.dropWhile Char.isWhitespace := dropWhile_dropWhile _ l
  have hC := strip_tail_fixed Char.isWhitespace (l.dropWhile Char.isWhitespace) hA
  show pyStripChars (pyStripChars l) = pyStripChars l
  rw [pyStripChars, pyStripChars, hC, List.reverse_reverse, dropWhile_dropWhile]

theorem pyStrip_idem (s : String) : pyStrip (pyStrip s) = pyStrip s := by
  show String.mk (pyStripChars (String.mk (pyStripChars s.data)).data)
    = String.mk (pyStripChars s.data)
  exact congrArg String.mk (pyStripChars_idem s.data)

theorem render_item_of_lookup_none {R : List CoinRecord} {cid : String}
    (h : coinsDictLookup R cid = Option.none) :
    render_item R cid = Except.ok (key_error_line cid cid) := by
  rw [render_item, h]

theorem render_coin_entry_eq {coin : CoinRecord} {cid : String} {q : ℚ}
    {c24 c7 c30 : String}
    (hid : coin.id = some cid)
    (hq : coin.current_price = some (PyVal.num q))
    (e24 : format_percentage coin.price_change_percentage_24h_in_currency = Except.ok c24)
    (e7 : format_percentage coin.price_change_percentage_7d_in_currency = Except.ok c7)
    (e30 : format_percentage coin.price_change_percentage_30d_in_currency = Except.ok c30) :
    render_coin coin cid = Except.ok (coin_entry cid q c24 c7 c30) := by
  rw [render_coin, hid, hq, e24, e7, e30]
  rfl

theorem render_items_congr {R R' : List CoinRecord} :
    ∀ W : List String, (∀ cid ∈ W, render_item R cid = render_item R' cid) →
      render_items R W = render_items R' W := by
  intro W
  induction W with
  | nil => intro _; rfl
  | cons cid rest ih =>
    intro h
    rw [render_items, render_items, h cid (List.mem_cons_self cid rest),
      ih (fun c hc => h c (List.mem_cons_of_mem cid hc))]

/-! ## The claims -/

/-- Claim C2: for a change-field value, `format_percentage` maps an
absent value (`None`) to the bare literal `"N/A"` with no styling
markup; a value strictly greater than zero to a green (positive) span
holding the value at one decimal place with a percent suffix; and a
value less than or equal to zero — zero included — to a red
(negative) span. -/
theorem format_percentage_classification :
    format_percentage PyVal.none = Except.ok "N/A"
      ∧ (∀ q : ℚ, 0 < q →
          format_percentage (PyVal.num q) = Except.ok (pctSpan "green" q))
      ∧ (∀ q : ℚ, q ≤ 0 →
          format_percentage (PyVal.num q) = Except.ok (pctSpan "red" q))
      ∧ (∀ q : ℚ, ∃ intPart : String, ∃ d : ℕ, d < 10
          ∧ fmt1 q = intPart ++ "." ++ String.mk [pyDigitChar d]) := by
  refine ⟨rfl, ?_, ?_, ?_⟩
  · intro q hq
    simp [format_percentage, hq]
  · intro q hq
    have h : ¬ 0 < q := not_lt.mpr hq
    simp [format_percentage, h]
  · intro q
    exact ⟨(if rhe10 q 1 < 0 then "-" else "") ++ natStr ((rhe10 q 1).natAbs / 10),
      (rhe10 q 1).natAbs % 10, Nat.mod_lt _ (by norm_num), rfl⟩

/-- Witness for C2: the classification at the concrete values 2
(positive), 0 (the boundary, rendered red) and absent. -/
theorem format_percentage_classification_witness :
    format_percentage (PyVal.num 2)
        = Except.ok "<span style=\"color: green\">2.0%</span>"
      ∧ format_percentage (PyVal.num 0)
        = Except.ok "<span style=\"color: red\">0.0%</span>"
      ∧ format_percentage PyVal.none = Except.ok "N/A" :=
  ⟨(format_percentage_classification.2.1 2 (by norm_num)).trans
      (congrArg Except.ok (by decide)),
    (format_percentage_classification.2.2.1 0 (by norm_num)).trans
      (congrArg Except.ok (by decide)),
    format_percentage_classification.1⟩

/-- Claim C3: for an anchor string that parses as hour:minute,
`get_next_run_time` is the date of today combined with the anchor
time when that moment is strictly in the future, and otherwise the
date of tomorrow combined with the anchor time. -/
theorem get_next_run_time_anchor (s : String) (h m now : ℕ)
    (hp : parse_start_time s = some (h, m)) :
    (now < combineDate (dateOf now) h m →
        get_next_run_time s now = combineDate (dateOf now) h m)
      ∧ (combineDate (dateOf now) h m ≤ now →
        get_next_run_time s now = combineDate (dateOf now + 1) h m) := by
  constructor
  · intro hlt
    simp only [get_next_run_time, hp]
    rw [if_neg (not_le.mpr hlt)]
  · intro hle
    simp only [get_next_run_time, hp]
    rw [if_pos hle]
    rw [combineDate, combineDate]
    ring

/-- Witness for C3: the two examples of the claim on the seconds
timeline (day 19723 is 2024-01-01).  At 10:00 the 09:00 anchor has
passed, so the first fire is 09:00 the next day; at 08:00 it has not,
so the first fire is 09:00 the same day. -/
theorem get_next_run_time_anchor_witness :
    get_next_run_time "09:00" 1704103200 = 1704186000
      ∧ get_next_run_time "09:00" 1704096000 = 1704099600 := by
  have hp : parse_start_time "09:00" = some (9, 0) := by decide
  constructor
  · exact ((get_next_run_time_anchor "09:00" 9 0 1704103200 hp).2
      (by decide)).trans (by decide)
  · exact ((get_next_run_time_anchor "09:00" 9 0 1704096000 hp).1
      (by decide)).trans (by decide)

/-- Claim C9: an anchor string that does not parse as hour:minute
makes `get_next_run_time` return `now` itself instead of raising (the
`ValueError` is caught and a warning printed). -/
theorem get_next_run_time_parse_fallback (s : String) (now : ℕ)
    (hp : parse_start_time s = Option.none) :
    get_next_run_time s now = now := by
  simp [get_next_run_time, hp]

/-- Witness for C9: the malformed anchor `"25:99"` of the claim (and
a colon-free one) fall back to `now`. -/
theorem get_next_run_time_parse_fallback_witness :
    parse_start_time "25:99" = Option.none
      ∧ get_next_run_time "25:99" 1704103200 = 1704103200
      ∧ get_next_run_time "0900" 1704103200 = 1704103200 :=
  ⟨by decide, get_next_run_time_parse_fallback "25:99" 1704103200 (by decide),
    get_next_run_time_parse_fallback "0900" 1704103200 (by decide)⟩

/-- Claim C4: a failed fetch (`fetch_crypto_data` returned `None`)
makes `send_crypto_update` return `False` with `send_email` never
invoked (zero dispatch attempts), whatever the dispatcher would have
done. -/
theorem send_crypto_update_fetch_failure (watched : List String)
    (send_result : Except String Unit) :
    send_crypto_update watched Option.none send_result = Except.ok ⟨false, 0, 0⟩ :=
  rfl

/-- Claim C10: a successful fetch that returns an empty collection is
treated exactly like a fetch failure by the `if crypto_data:`
truthiness guard: `False` is returned and neither the renderer nor
`send_email` is invoked. -/
theorem send_crypto_update_empty_fetch (watched : List String)
    (send_result : Except String Unit) :
    send_crypto_update watched (some []) send_result = Except.ok ⟨false, 0, 0⟩
      ∧ send_crypto_update watched Option.none send_result = Except.ok ⟨false, 0, 0⟩ :=
  ⟨rfl, rfl⟩

/-- Claim C5: when the fetch succeeded (non-empty data whose body
renders) and `send_email` raises, `send_crypto_update` catches the
exception and returns `False`; the result is an `Except.ok`, so
nothing propagates out of the run. -/
theorem send_crypto_update_dispatch_failure (watched : List String)
    (data : List CoinRecord) (e body : String)
    (hne : data ≠ [])
    (hrender : create_crypto_email_body watched data = Except.ok body) :
    send_crypto_update watched (some data) (Except.error e) = Except.ok ⟨false, 1, 1⟩ := by
  have hie : data.isEmpty = false := by
    cases data with
    | nil => exact absurd rfl hne
    | cons a t => rfl
  simp [send_crypto_update, hie, hrender]

/-- Witness for C5: a concrete run whose fetch produced one record,
whose body renders, and whose send raises an authentication error. -/
theorem send_crypto_update_dispatch_failure_witness :
    send_crypto_update ["bitcoin"]
        (some [⟨some "x", Option.none, PyVal.none, PyVal.none, PyVal.none⟩])
        (Except.error "SMTPAuthenticationError")
      = Except.ok ⟨false, 1, 1⟩ :=
  send_crypto_update_dispatch_failure ["bitcoin"] _ "SMTPAuthenticationError"
    "<html><body><p>Error accessing data for bitcoin: \x27bitcoin\x27</p></body></html>"
    (by simp) rfl

/-- Claim C6: watch-list resolution precedence.  A truthy structured
value that parses is returned verbatim; one that fails to parse falls
through to the delimited tier (no exception — the embedding is a
total function); a truthy delimited string yields its comma-split,
stripped elements; with both forms absent the default pair
`["bitcoin", "ethereum"]` is returned. -/
theorem get_watched_coins_precedence (json_loads : String → Option JVal)
    (s : String) (wl : Option String) :
    (∀ j, s ≠ "" → json_loads s = some j →
        get_watched_coins json_loads (some s) wl = j)
      ∧ (json_loads s = Option.none →
        get_watched_coins json_loads (some s) wl = watched_coins_fallback wl)
      ∧ (∀ t, t ≠ "" → watched_coins_fallback (some t)
          = JVal.arr ((pySplit t ',').map (fun c => JVal.str (pyStrip c))))
      ∧ get_watched_coins json_loads Option.none Option.none
          = JVal.arr [JVal.str "bitcoin", JVal.str "ethereum"] := by
  refine ⟨?_, ?_, ?_, rfl⟩
  · intro j hs hj
    simp [get_watched_coins, hs, hj]
  · intro hj
    by_cases hs : s = ""
    · simp [get_watched_coins, hs]
    · simp [get_watched_coins, hs, hj]
  · intro t ht
    simp [watched_coins_fallback, ht]

/-- Witness for C6: a parsing structured form is returned verbatim; a
non-parsing one falls through to the delimited tier. -/
theorem get_watched_coins_precedence_witness :
    get_watched_coins
        (fun t => if t = "good" then some (JVal.str "parsed") else Option.none)
        (some "good") (some "a,b") = JVal.str "parsed"
      ∧ get_watched_coins (fun _ => (Option.none : Option JVal))
          (some "not json") (some "a,b") = watched_coins_fallback (some "a,b") :=
  ⟨(get_watched_coins_precedence _ "good" (some "a,b")).1
      (JVal.str "parsed") (by simp) rfl,
    (get_watched_coins_precedence _ "not json" (some "a,b")).2.1 rfl⟩

/-- Counterexample to claim C7 as stated: with the delimited form
`"bitcoin,,"`, the resolver returns three identifiers of which the
second and third are the empty string — the returned identifiers are
not all non-empty. -/
theorem get_watched_coins_empty_identifier :
    get_watched_coins (fun _ => (Option.none : Option JVal)) Option.none
        (some "bitcoin,,")
      = JVal.arr [JVal.str "bitcoin", JVal.str "", JVal.str ""]
      ∧ JVal.str "" ∈ jarrElems (get_watched_coins
          (fun _ => (Option.none : Option JVal)) Option.none (some "bitcoin,,")) := by
  constructor
  · rfl
  · show JVal.str "" ∈ [JVal.str "bitcoin", JVal.str "", JVal.str ""]
    exact List.mem_cons_of_mem _ (List.mem_cons_self _ _)

/-- Claim C7 (amended): when resolution reaches the fallback tiers
(the structured form absent, empty, or failing to parse), every
returned identifier is a whitespace-trimmed string — equal to its own
strip — but emptiness is possible (see the counterexample), and the
structured tier returns the parse result verbatim with no trimming at
all. -/
theorem get_watched_coins_trimmed (json_loads : String → Option JVal)
    (wc wl : Option String)
    (hwc : ∀ s, wc = some s → s = "" ∨ json_loads s = Option.none) :
    ∃ ids : List String,
      get_watched_coins json_loads wc wl = JVal.arr (ids.map (fun x => JVal.str x))
        ∧ ∀ x ∈ ids, pyStrip x = x := by
  have hfb : get_watched_coins json_loads wc wl = watched_coins_fallback wl := by
    match wc with
    | Option.none => rfl
    | some s =>
      rcases hwc s rfl with hs | hj
      · simp [get_watched_coins, hs]
      · by_cases hs : s = ""
        · simp [get_watched_coins, hs]
        · simp [get_watched_coins, hs, hj]
  rw [hfb]
  match wl with
  | Option.none => exact ⟨["bitcoin", "ethereum"], rfl, by decide⟩
  | some t =>
    by_cases ht : t = ""
    · exact ⟨["bitcoin", "ethereum"], by simp [watched_coins_fallback, ht], by decide⟩
    · refine ⟨(pySplit t ',').map pyStrip, ?_, ?_⟩
      · simp [watched_coins_fallback, ht, List.map_map]
      · intro x hx
        obtain ⟨c, _, rfl⟩ := List.mem_map.mp hx
        exact pyStrip_idem c

/-- Witness for C7 (amended): the delimited form `" a , b "` resolves
to trimmed identifiers. -/
theorem get_watched_coins_trimmed_witness :
    ∃ ids : List String,
      get_watched_coins (fun _ => (Option.none : Option JVal)) Option.none
          (some " a , b ")
        = JVal.arr (ids.map (fun x => JVal.str x))
        ∧ ∀ x ∈ ids, pyStrip x = x :=
  get_watched_coins_trimmed _ Option.none (some " a , b ")
    (fun _ hs => Option.noConfusion hs)

/-- Counterexample to claim C8 as stated: rendering is not total on
ill-typed fields.  A record whose 24h change field holds a string
other than `"N/A"` makes `format_percentage` evaluate `value > 0`
between a string and an integer; the resulting `TypeError` is not a
`KeyError`, so the `except` clause at line 96 does not catch it and
`create_crypto_email_body` raises. -/
theorem create_crypto_email_body_raises :
    create_crypto_email_body ["bitcoin"]
        [⟨some "bitcoin", some (PyVal.num 5), PyVal.str "oops", PyVal.none, PyVal.none⟩]
      = Except.error "TypeError: str and int comparison" :=
  rfl

/-- Claim C8 (amended): rendering is total — returns some document
without raising — for every watch list and every record collection
whose records fit the data model loosely: each has an `id` key, a
`current_price` that is absent or numeric, and change fields that are
absent, numeric, or the string `"N/A"`.  An empty collection and a
record with an absent `current_price` key are fine (the per-item
`KeyError` path).  Outside that shape the renderer can raise (see the
counterexample). -/
theorem create_crypto_email_body_total (watched : List String)
    (coins_data : List CoinRecord) (hR : ∀ c ∈ coins_data, RenderOK c) :
    ∃ body, create_crypto_email_body watched coins_data = Except.ok body := by
  have hall : coins_data.all (fun c => c.id.isSome) = true := by
    rw [List.all_eq_true]
    intro c hc
    exact (hR c hc).1
  obtain ⟨items, hitems, -, -⟩ :=
    render_items_ok (W := watched) (fun cid _ => render_item_ok hR cid)
  exact ⟨_, by rw [create_crypto_email_body, if_pos hall, hitems]⟩

/-- Witness for C8 (amended): a mixed concrete input — one full
record, one record with the price key missing, one watched identifier
with no record at all — renders to a document. -/
theorem create_crypto_email_body_total_witness :
    ∃ body, create_crypto_email_body ["bitcoin", "doge"]
        [⟨some "bitcoin", some (PyVal.num 100), PyVal.num 5, PyVal.none, PyVal.none⟩,
         ⟨some "tether", Option.none, PyVal.str "N/A", PyVal.none, PyVal.none⟩]
      = Except.ok body :=
  create_crypto_email_body_total _ _ (by
    intro c hc
    fin_cases hc
    · exact ⟨rfl, trivial, trivial, trivial, trivial⟩
    · exact ⟨rfl, trivial, rfl, trivial, trivial⟩)

/-- Claim C1: for a non-empty watch list `W` and fetched records `R`
of the spec data model, the rendered document is the `<html><body>`
wrapper around exactly `W.length` items in the order of `W`: position `i`
holds the per-item error line naming `W[i]` when no record of `R`
carries that identifier, and the rendered entry (upper-cased
identifier, formatted price, three formatted change fields) of the
looked-up record when one does; and records whose identifier is not
in `W` never influence the document (filtering them away first gives
the same document). -/
theorem create_crypto_email_body_order (W : List String) (R : List CoinRecord)
    (_hW : W ≠ []) (hR : ∀ c ∈ R, WFRecord c) :
    ∃ items : List String,
      create_crypto_email_body W R
          = Except.ok ("<html><body>" ++ String.join items ++ "</body></html>")
        ∧ items.length = W.length
        ∧ (∀ i (hi : i < W.length),
            ((∀ c ∈ R, c.id ≠ some (W.get ⟨i, hi⟩)) →
              items.get? i = some (key_error_line (W.get ⟨i, hi⟩) (W.get ⟨i, hi⟩)))
            ∧ (∀ coin, coinsDictLookup R (W.get ⟨i, hi⟩) = some coin →
                ∃ q c24 c7 c30,
                  coin ∈ R ∧ coin.id = some (W.get ⟨i, hi⟩)
                    ∧ coin.current_price = some (PyVal.num q)
                    ∧ format_percentage coin.price_change_percentage_24h_in_currency
                        = Except.ok c24
                    ∧ format_percentage coin.price_change_percentage_7d_in_currency
                        = Except.ok c7
                    ∧ format_percentage coin.price_change_percentage_30d_in_currency
                        = Except.ok c30
                    ∧ items.get? i = some (coin_entry (W.get ⟨i, hi⟩) q c24 c7 c30)))
        ∧ create_crypto_email_body W R
            = create_crypto_email_body W
                (R.filter (fun c => match c.id with
                  | some s => decide (s ∈ W)
                  | Option.none => false)) := by
  have hRok : ∀ c ∈ R, RenderOK c := fun c hc => WFRecord_RenderOK (hR c hc)
  have hall : R.all (fun c => c.id.isSome) = true := by
    rw [List.all_eq_true]
    intro c hc
    exact (hRok c hc).1
  obtain ⟨items, hitems, hlen, hidx⟩ :=
    render_items_ok (W := W) (fun cid _ => render_item_ok hRok cid)
  have hbody : create_crypto_email_body W R
      = Except.ok ("<html><body>" ++ String.join items ++ "</body></html>") := by
    rw [create_crypto_email_body, if_pos hall, hitems]
  refine ⟨items, hbody, hlen, ?_, ?_⟩
  · intro i hi
    obtain ⟨b, hb1, hb2⟩ := hidx i hi
    constructor
    · intro habs
      have hnone : coinsDictLookup R (W.get ⟨i, hi⟩) = Option.none :=
        (coinsDictLookup_eq_none_iff R _).mpr habs
      have := (render_item_of_lookup_none hnone).symm.trans hb2
      rw [hb1, ← Except.ok.inj this]
    · intro coin hcoin
      obtain ⟨hmem, hid⟩ := coinsDictLookup_mem hcoin
      obtain ⟨-, ⟨q, hq⟩, h3, h4, h5⟩ := hR coin hmem
      obtain ⟨c24, e24⟩ := format_percentage_ok (numOrAbsent_changeRenderable h3)
      obtain ⟨c7, e7⟩ := format_percentage_ok (numOrAbsent_changeRenderable h4)
      obtain ⟨c30, e30⟩ := format_percentage_ok (numOrAbsent_changeRenderable h5)
      refine ⟨q, c24, c7, c30, hmem, hid, hq, e24, e7, e30, ?_⟩
      have hitem : render_item R (W.get ⟨i, hi⟩)
          = Except.ok (coin_entry (W.get ⟨i, hi⟩) q c24 c7 c30) := by
        rw [render_item, hcoin]
        exact render_coin_entry_eq hid hq e24 e7 e30
      have := hitem.symm.trans hb2
      rw [hb1, ← Except.ok.inj this]
  · have hlookup : ∀ cid ∈ W,
        render_item (R.filter (fun c => match c.id with
          | some s => decide (s ∈ W)
          | Option.none => false)) cid = render_item R cid := by
      intro cid hcid
      rw [render_item, render_item, coinsDictLookup_filter]
      intro c hc
      rw [hc]
      simpa using hcid
    have hall2 : (R.filter (fun c => match c.id with
        | some s => decide (s ∈ W)
        | Option.none => false)).all (fun c => c.id.isSome) = true := by
      rw [List.all_eq_true]
      intro c hc
      exact (hRok c (List.mem_of_mem_filter hc)).1
    have hitems2 : render_items (R.filter (fun c => match c.id with
        | some s => decide (s ∈ W)
        | Option.none => false)) W = Except.ok items := by
      rw [render_items_congr W hlookup, hitems]
    rw [hbody, create_crypto_email_body, if_pos hall2, hitems2]

/-- Witness for C1: a concrete watch list of two identifiers against
records holding the second one and an unrelated one — two items come
back, one rendered entry, one error line. -/
theorem create_crypto_email_body_order_witness :
    ∃ items : List String,
      create_crypto_email_body ["bitcoin", "doge"]
          [⟨some "solana", some (PyVal.num 1), PyVal.none, PyVal.none, PyVal.none⟩,
           ⟨some "bitcoin", some (PyVal.num 100), PyVal.num 5, PyVal.none, PyVal.none⟩]
        = Except.ok ("<html><body>" ++ String.join items ++ "</body></html>")
        ∧ items.length = 2 := by
  obtain ⟨items, h1, h2, -, -⟩ :=
    create_crypto_email_body_order ["bitcoin", "doge"]
      [⟨some "solana", some (PyVal.num 1), PyVal.none, PyVal.none, PyVal.none⟩,
       ⟨some "bitcoin", some (PyVal.num 100), PyVal.num 5, PyVal.none, PyVal.none⟩]
      (by simp)
      (by
        intro c hc
        fin_cases hc
        · exact ⟨rfl, ⟨1, rfl⟩, trivial, trivial, trivial⟩
        · exact ⟨rfl, ⟨100, rfl⟩, trivial, trivial, trivial⟩)
  exact ⟨items, h1, h2⟩
